import Mathlib

/-!
Verification development for the strategy backtesting pipeline of the
vibewater_associates repository.  Python floats are modelled as exact
rationals (ℚ), calendar dates as integer day numbers, and fallible values
as `Option`.  Each definition is a shallow embedding of the corresponding
function in `src/backend/app`.
-/

namespace VW

/-- Round a rational to the nearest integer, halves to even.  Models
Python's `round` (banker's rounding), ignoring binary-float representation
error. -/
def roundHalfEven (q : ℚ) : ℤ :=
  let f : ℤ := ⌊q⌋
  let r : ℚ := q - (f : ℚ)
  if r < 1/2 then f
  else if 1/2 < r then f + 1
  else if f % 2 = 0 then f else f + 1

/-- Models Python `round(x, 2)`. -/
def round2 (q : ℚ) : ℚ := (roundHalfEven (q * 100) : ℚ) / 100

/-- Models Python `round(x, 1)`. -/
def round1 (q : ℚ) : ℚ := (roundHalfEven (q * 10) : ℚ) / 10

/-- `BacktestMetrics` from `app/models.py`.  Floats are rationals, the
trade count is an integer. -/
structure BacktestMetrics where
  total_amount_invested : ℚ
  total_gain : ℚ
  total_loss : ℚ
  total_return : ℚ
  cagr : ℚ
  sharpe_ratio : ℚ
  max_drawdown : ℚ
  max_drawdown_duration : ℤ
  win_rate : ℚ
  trades : ℤ
  vs_benchmark : ℚ
deriving DecidableEq, Repr

/-- `StrategyPerformanceRanking` from `app/models.py`. -/
structure StrategyPerformanceRanking where
  strategy_id : String
  strategy_name : String
  performance_score : ℚ
  metrics : BacktestMetrics
  risk_adjusted_return : ℚ
  consistency_score : ℚ
  market_adaptability : ℚ
  rank : ℤ
deriving DecidableEq, Repr

/-- The fields of a `ResearchedStrategy` consumed by
`_calculate_performance_ranking` (`research_agent_service.py`): `id`
(optional), `name` and `confidence_score`. -/
structure StrategyInput where
  id : Option String
  name : String
  confidence_score : ℚ
deriving DecidableEq, Repr

/-- Python's two-argument `min` on floats (`min(a, b)`), written as a
conditional so that it evaluates by kernel reduction. -/
def pyMinQ (a b : ℚ) : ℚ := if a ≤ b then a else b

/-- Python's two-argument `max` on floats (`max(a, b)`). -/
def pyMaxQ (a b : ℚ) : ℚ := if a ≤ b then b else a

/-- `ResearchAgentService._calculate_performance_ranking`
(`research_agent_service.py`, lines 750-786), translated line by line:
risk-adjusted return, consistency score and market adaptability are
computed unclamped; only the composite performance score is clamped to
[0, 100]. -/
def calculate_performance_ranking (strategy : StrategyInput)
    (metrics : BacktestMetrics) (initial_rank : ℤ) :
    StrategyPerformanceRanking :=
  let risk_adjusted_return := metrics.sharpe_ratio * metrics.total_return
  let consistency_score :=
    (metrics.win_rate / 100) * (1 - |metrics.max_drawdown| / 100)
  let market_adaptability :=
    (metrics.vs_benchmark + 100) / 100 * pyMinQ ((metrics.trades : ℚ) / 100) 1
  let performance_score :=
    risk_adjusted_return * 0.4 +
    consistency_score * 100 * 0.3 +
    market_adaptability * 100 * 0.2 +
    strategy.confidence_score * 100 * 0.1
  let performance_score := pyMaxQ 0 (pyMinQ 100 performance_score)
  { strategy_id := strategy.id.getD "unknown"
    strategy_name := strategy.name
    performance_score := performance_score
    metrics := metrics
    risk_adjusted_return := risk_adjusted_return
    consistency_score := consistency_score
    market_adaptability := market_adaptability
    rank := initial_rank }

/-- One insertion step of the stable descending sort performed by
`rankings.sort(key=lambda x: x.performance_score, reverse=True)`:
`x` is placed before the first element whose score is `≤` its own, so
elements with equal scores keep their original relative order. -/
def insertByScoreDesc (x : StrategyPerformanceRanking) :
    List StrategyPerformanceRanking → List StrategyPerformanceRanking
  | [] => [x]
  | y :: ys =>
    if y.performance_score ≤ x.performance_score then x :: y :: ys
    else y :: insertByScoreDesc x ys

/-- Stable descending sort by `performance_score`, the semantics of
Python's stable `list.sort(key=..., reverse=True)` in
`run_autonomous_backtests` (`research_agent_service.py`, line 630). -/
def sortRankings : List StrategyPerformanceRanking →
    List StrategyPerformanceRanking
  | [] => []
  | x :: xs => insertByScoreDesc x (sortRankings xs)

/-- `for i, ranking in enumerate(rankings): ranking.rank = i + 1`
(`research_agent_service.py`, lines 633-634). -/
def update_ranks_aux (i : ℤ) : List StrategyPerformanceRanking →
    List StrategyPerformanceRanking
  | [] => []
  | r :: rs => { r with rank := i + 1 } :: update_ranks_aux (i + 1) rs

/-- Reassign ranks 1..N in list order after sorting. -/
def update_ranks (l : List StrategyPerformanceRanking) :
    List StrategyPerformanceRanking := update_ranks_aux 0 l

/-- The ranking-accumulation loop of `run_autonomous_backtests`
(`research_agent_service.py`, lines 619-627): each strategy is zipped with
its backtest outcome (`none` models an `Exception` result, which is
skipped), and surviving entries are scored with initial rank `i + 1`. -/
def buildRankings
    (pairs : List (StrategyInput × Option BacktestMetrics)) :
    List StrategyPerformanceRanking :=
  pairs.enum.filterMap fun p =>
    (p.2.2).map fun m =>
      calculate_performance_ranking p.2.1 m ((p.1 : ℤ) + 1)

/-- The rank-and-sort tail of `run_autonomous_backtests`
(`research_agent_service.py`, lines 619-643): score every successful
(strategy, metrics) pair, sort descending by performance score, then
reassign ranks 1..N. -/
def run_autonomous_rank
    (pairs : List (StrategyInput × Option BacktestMetrics)) :
    List StrategyPerformanceRanking :=
  update_ranks (sortRankings (buildRankings pairs))

/-! ### Rule-text matching

`run_schema_backtest` (`vectorbt_service.py`) and
`_parse_indicators_from_rules` (`strategy_code_generator.py`) recognise
rule text with `re.search`.  The patterns used contain no ambiguous
backtracking: every `\d+`, `\s+`, `\s*`, `[^\d]*` and `[-\s]?` occurrence
is followed by a token it cannot consume, so each pattern is embedded as a
deterministic matcher; `re.search` semantics (leftmost match, greedy `.*`
taking the rightmost viable continuation, `.` not crossing a newline) are
embedded by `searchFirst` and `searchGreedyTail`. -/

/-- ASCII lower-casing: the effect of `str.lower()` / `re.IGNORECASE` on
the ASCII rule text. -/
def lowerChar (c : Char) : Char :=
  if 'A' ≤ c ∧ c ≤ 'Z' then Char.ofNat (c.toNat + 32) else c

/-- A string as a lower-cased character list. -/
def lowerStr (s : String) : List Char := s.data.map lowerChar

/-- Python's ASCII `\s` class. -/
def pySpace (c : Char) : Bool :=
  c = ' ' || c = '\t' || c = '\n' || c = '\r' || c = '\x0b' || c = '\x0c'

/-- Numeric value of a digit run, as captured by `(\d+)` and `int(...)`. -/
def digitsVal (ds : List Char) : Nat :=
  ds.foldl (fun a c => 10 * a + (c.toNat - 48)) 0

/-- Match a literal keyword, returning the remaining input. -/
def litM : List Char → List Char → Option (List Char)
  | [], cs => some cs
  | _ :: _, [] => none
  | p :: ps, c :: cs => if c = p then litM ps cs else none

/-- `\s+`: at least one whitespace character, consumed greedily. -/
def spaces1 : List Char → Option (List Char)
  | [] => none
  | c :: cs => if pySpace c then some (cs.dropWhile pySpace) else none

/-- `[-\s]?`: at most one dash or whitespace character. -/
def optDashSpace : List Char → List Char
  | [] => []
  | c :: cs => if c = '-' || pySpace c then cs else c :: cs

def kwDay : List Char := "day".data
def kwMa : List Char := "ma".data
def kwCrosses : List Char := "crosses".data
def kwAbove : List Char := "above".data
def kwBelow : List Char := "below".data
def kwMoving : List Char := "moving".data
def kwAverage : List Char := "average".data
def kwRsi : List Char := "rsi".data
def kwMacd : List Char := "macd".data
def kwBollinger : List Char := "bollinger".data

/-- `(\d+)[-\s]?day` at the start of the input. -/
def matchNumDayAt (cs : List Char) : Option (Nat × List Char) :=
  match cs.span Char.isDigit with
  | (ds, rest) =>
    if ds.isEmpty then none
    else
      match litM kwDay (optDashSpace rest) with
      | some rest2 => some (digitsVal ds, rest2)
      | none => none

/-- The first MA pattern of `run_schema_backtest`
(`vectorbt_service.py`, line 72):
`(\d+)[-\s]?day\s+MA\s+crosses\s+above\s+(\d+)[-\s]?day`, at the start of
the (lower-cased) input. -/
def matchMA1At (cs : List Char) : Option (Nat × Nat) := do
  let (n1, rest) ← matchNumDayAt cs
  let rest ← spaces1 rest
  let rest ← litM kwMa rest
  let rest ← spaces1 rest
  let rest ← litM kwCrosses rest
  let rest ← spaces1 rest
  let rest ← litM kwAbove rest
  let rest ← spaces1 rest
  let (n2, _) ← matchNumDayAt rest
  return (n1, n2)

/-- `(\d+)[-\s]?day\s+moving\s+average` at the start of the input: the
shared prefix of the second MA pattern of `run_schema_backtest`
(`vectorbt_service.py`, line 74) and the MA pattern of
`_parse_indicators_from_rules` (`strategy_code_generator.py`, line 115). -/
def movingAveragePrefixAt (cs : List Char) : Option (Nat × List Char) := do
  let (n1, rest) ← matchNumDayAt cs
  let rest ← spaces1 rest
  let rest ← litM kwMoving rest
  let rest ← spaces1 rest
  let rest ← litM kwAverage rest
  return (n1, rest)

/-- Index of the first newline (input length when there is none): `.`
does not cross a newline. -/
def firstNewlineIdx : List Char → Nat
  | [] => 0
  | c :: cs => if c = '\n' then 0 else firstNewlineIdx cs + 1

/-- `re.search` semantics: try the matcher at every start position, left
to right. -/
def searchFirst (f : List Char → Option α) : List Char → Option α
  | [] => f []
  | c :: cs => (f (c :: cs)).orElse fun _ => searchFirst f cs

/-- Greedy `.*` followed by a sub-pattern: the sub-pattern is matched at
the rightmost start position the backtracking `.*` can reach, the skipped
gap containing no newline. -/
def searchGreedyTail (f : List Char → Option α) (cs : List Char) :
    Option α :=
  ((List.range (firstNewlineIdx cs + 1)).reverse).findSome? fun q =>
    f (cs.drop q)

/-- Second MA pattern of `run_schema_backtest` (`vectorbt_service.py`,
line 74): `(\d+)[-\s]?day\s+moving\s+average.*(\d+)[-\s]?day` at the start
of the input. -/
def matchMA2At (cs : List Char) : Option (Nat × Nat) := do
  let (n1, rest) ← movingAveragePrefixAt cs
  let (n2, _) ← searchGreedyTail matchNumDayAt rest
  return (n1, n2)

/-- The MA-crossover extraction of `run_schema_backtest`
(`vectorbt_service.py`, lines 71-77) for one rule string: the first
pattern is searched, then the second. -/
def maMatch (r : String) : Option (Nat × Nat) :=
  let cs := lowerStr r
  (searchFirst matchMA1At cs).orElse fun _ => searchFirst matchMA2At cs

/-- A keyword followed by `\s*(\d+)`, as in `below\s*(\d+)` and
`above\s*(\d+)`. -/
def matchKwNumAt (kw : List Char) (cs : List Char) :
    Option (Nat × List Char) := do
  let rest ← litM kw cs
  let rest := rest.dropWhile pySpace
  match rest.span Char.isDigit with
  | (ds, rest2) => if ds.isEmpty then none else some (digitsVal ds, rest2)

/-- RSI pattern of `run_schema_backtest` (`vectorbt_service.py`, line 89):
`rsi[^\d]*(\d+).*below\s*(\d+).*above\s*(\d+)` at the start of the
input. -/
def matchRSIAt (cs : List Char) : Option (Nat × Nat × Nat) := do
  let rest ← litM kwRsi cs
  let rest := rest.dropWhile fun c => !c.isDigit
  match rest.span Char.isDigit with
  | (ds, rest2) =>
    if ds.isEmpty then none
    else do
      let (n2, n3) ← searchGreedyTail (fun t => do
          let (b, r2) ← matchKwNumAt kwBelow t
          let (a, _) ← searchGreedyTail (matchKwNumAt kwAbove) r2
          return (b, a)) rest2
      return (digitsVal ds, n2, n3)

/-- The RSI extraction of `run_schema_backtest` for one rule string
(`vectorbt_service.py`, lines 88-92). -/
def rsiMatch (r : String) : Option (Nat × Nat × Nat) :=
  searchFirst matchRSIAt (lowerStr r)

/-- The signal rule `run_schema_backtest` ends up simulating:
an MA crossover (entries = fast MA crosses above slow MA, exits = the
mirror) or an RSI rule (entries = RSI crosses below the buy level,
exits = RSI crosses above the sell level). -/
inductive SignalChoice where
  | maCross (fast slow : Nat)
  | rsiRule (period buy sell : Nat)
deriving DecidableEq, Repr

/-- The signal-selection logic of `run_schema_backtest`
(`vectorbt_service.py`, lines 64-109): the first rule with an MA match
wins; otherwise the first rule with an RSI match; otherwise the default
10/30 MA crossover. -/
def chooseSignals (entry_rules : List String) : SignalChoice :=
  match entry_rules.findSome? maMatch with
  | some (fast, slow) => SignalChoice.maCross fast slow
  | none =>
    match entry_rules.findSome? rsiMatch with
    | some (p, buy, sell) => SignalChoice.rsiRule p buy sell
    | none => SignalChoice.maCross 10 30

/-! ### Strategy-schema nodes and the rule parser -/

/-- The `meta` mapping of a strategy node, restricted to the keys the
services read (`category`, `mode`, `rules`, `target_pct`, `stop_pct`);
`none` models an absent key, so `meta.get(k, d)` becomes `getD d`. -/
structure NodeMeta where
  category : Option String := none
  mode : Option String := none
  rules : Option (List String) := none
  target_pct : Option ℚ := none
  stop_pct : Option ℚ := none
deriving DecidableEq, Repr

/-- A strategy node as consumed by `StrategyCodeGenerator` (a dict with
`id`, `type` and `meta`). -/
structure CGNode where
  id : String
  type : String
  meta : NodeMeta
deriving DecidableEq, Repr

/-- A strategy node as consumed by `run_schema_backtest`
(`vectorbt_service.py` reads `node.type` and `node.data['meta']`). -/
structure VNode where
  type : String
  meta : NodeMeta
deriving DecidableEq, Repr

/-- One assignment `d[n.id] = n` into a Python dict: an existing key keeps
its insertion position but takes the new value, a new key is appended. -/
def insertNodeDict (acc : List CGNode) (n : CGNode) : List CGNode :=
  if acc.any fun m => m.id = n.id then
    acc.map fun m => if m.id = n.id then n else m
  else acc ++ [n]

/-- `nodes_dict = {node['id']: node for node in nodes}`
(`strategy_code_generator.py`, line 28), as its ordered value list. -/
def buildNodesDict (nodes : List CGNode) : List CGNode :=
  nodes.foldl insertNodeDict []

def isCategoryNode (n : CGNode) : Bool :=
  n.type = "category" || n.type = "crypto_category"

def isEntryNode (n : CGNode) : Bool :=
  n.type = "entry_condition" || n.type = "entry"

def isTakeProfitNode (n : CGNode) : Bool :=
  n.type = "take_profit" || n.type = "exit_target"

def isStopLossNode (n : CGNode) : Bool :=
  n.type = "stop_loss"

/-- `StrategyCodeGenerator._extract_category`
(`strategy_code_generator.py`, lines 64-71): the first category-typed
node wins (the loop returns immediately); default `"Bitcoin"`. -/
def extract_category (nodes : List CGNode) : String :=
  match nodes.find? isCategoryNode with
  | some n => (n.meta.category).getD "Bitcoin"
  | none => "Bitcoin"

/-- `StrategyCodeGenerator._extract_exit_logic`
(`strategy_code_generator.py`, lines 87-95): the loop has no break, so
each take-profit node overwrites `exit_data['take_profit_pct']` — the
last one wins; a present node with an absent `target_pct` key yields the
default `5.0`. -/
def extract_exit_logic (nodes : List CGNode) : Option ℚ :=
  nodes.foldl
    (fun acc n =>
      if isTakeProfitNode n then some ((n.meta.target_pct).getD 5) else acc)
    none

/-- `StrategyCodeGenerator._extract_risk_management`
(`strategy_code_generator.py`, lines 97-105): same shape as
`_extract_exit_logic`, keyed on `stop_loss` / `stop_pct`, default 5.0. -/
def extract_risk_management (nodes : List CGNode) : Option ℚ :=
  nodes.foldl
    (fun acc n =>
      if isStopLossNode n then some ((n.meta.stop_pct).getD 5) else acc)
    none

/-- The stop values embedded into the generated portfolio code by
`StrategyCodeGenerator._generate_portfolio`
(`strategy_code_generator.py`, lines 249-271):
`sl_stop = risk_mgmt.get('stop_loss_pct', 5.0) / 100` and
`tp_stop = exit_logic.get('take_profit_pct', 7.0) / 100` — always
numeric, defaults substituted whenever the dicts carry no value. -/
def generate_portfolio_stops (risk_mgmt exit_logic : Option ℚ) : ℚ × ℚ :=
  ((risk_mgmt.getD 5) / 100, (exit_logic.getD 7) / 100)

/-- `extract_category` after the `nodes_dict` construction performed by
`generate_vectorbt_code`. -/
def extract_category_of_schema (nodes : List CGNode) : String :=
  extract_category (buildNodesDict nodes)

/-- `extract_exit_logic` after the `nodes_dict` construction. -/
def extract_exit_logic_of_schema (nodes : List CGNode) : Option ℚ :=
  extract_exit_logic (buildNodesDict nodes)

/-- `extract_risk_management` after the `nodes_dict` construction. -/
def extract_risk_management_of_schema (nodes : List CGNode) : Option ℚ :=
  extract_risk_management (buildNodesDict nodes)

/-- An indicator spec appended by `_parse_indicators_from_rules`
(`strategy_code_generator.py`, lines 107-134). -/
inductive CGInd where
  | MA (period : Nat)
  | RSI (period : Nat)
  | MACD (fast slow signal : Nat)
  | BBANDS (period : Nat) (std : Nat)
deriving DecidableEq, Repr

def isMAInd : CGInd → Bool
  | CGInd.MA _ => true
  | _ => false

def isRSIInd : CGInd → Bool
  | CGInd.RSI _ => true
  | _ => false

/-- The `period` key read by the fast/slow selection (only ever applied
to MA specs). -/
def indPeriod : CGInd → Nat
  | CGInd.MA p => p
  | CGInd.RSI p => p
  | CGInd.MACD f _ _ => f
  | CGInd.BBANDS p _ => p

/-- `kw in rule_lower`: substring containment. -/
def containsKw (kw : List Char) (cs : List Char) : Bool :=
  (searchFirst (litM kw) cs).isSome

/-- `rsi[^\d]*(\d+)` at the start of the input
(`strategy_code_generator.py`, line 122). -/
def matchRsiNumAt (cs : List Char) : Option Nat := do
  let rest ← litM kwRsi cs
  let rest := rest.dropWhile fun c => !c.isDigit
  match rest.span Char.isDigit with
  | (ds, _) => if ds.isEmpty then none else some (digitsVal ds)

/-- `_parse_indicators_from_rules` for one rule
(`strategy_code_generator.py`, lines 111-132): MA by regex (a single
`re.search`, so at most one MA per rule), RSI by substring with an
optional period (default 14), MACD and Bollinger by substring with fixed
parameters, appended in this order. -/
def parseRuleIndicators (rule : String) : List CGInd :=
  let low := lowerStr rule
  (match searchFirst movingAveragePrefixAt low with
   | some (p, _) => [CGInd.MA p]
   | none => []) ++
  (if containsKw kwRsi low then
    [CGInd.RSI ((searchFirst matchRsiNumAt low).getD 14)]
   else []) ++
  (if containsKw kwMacd low then [CGInd.MACD 12 26 9] else []) ++
  (if containsKw kwBollinger low then [CGInd.BBANDS 20 2] else [])

/-- `StrategyCodeGenerator._parse_indicators_from_rules`
(`strategy_code_generator.py`, lines 107-134). -/
def parseIndicatorsFromRules (rules : List String) : List CGInd :=
  rules.flatMap parseRuleIndicators

/-- The `entry_logic` dict built by `_extract_entry_logic`
(`strategy_code_generator.py`, lines 73-85). -/
structure EntryLogic where
  mode : String
  rules : List String
  indicators : List CGInd
deriving DecidableEq, Repr

/-- `StrategyCodeGenerator._extract_entry_logic`
(`strategy_code_generator.py`, lines 73-85): the first entry-typed node
wins (the loop returns immediately); defaults otherwise. -/
def extract_entry_logic (nodes : List CGNode) : EntryLogic :=
  match nodes.find? isEntryNode with
  | some n =>
    { mode := (n.meta.mode).getD "manual"
      rules := (n.meta.rules).getD []
      indicators := parseIndicatorsFromRules ((n.meta.rules).getD []) }
  | none => { mode := "manual", rules := [], indicators := [] }

/-- Python `min(list, key=f)`: the first minimal element. -/
def pyMinBy (f : α → Nat) (x : α) (l : List α) : α :=
  l.foldl (fun a b => if f b < f a then b else a) x

/-- Python `max(list, key=f)`: the first maximal element. -/
def pyMaxBy (f : α → Nat) (x : α) (l : List α) : α :=
  l.foldl (fun a b => if f a < f b then b else a) x

/-- The code lines of the default branch of `_generate_indicators`
(`strategy_code_generator.py`, lines 183-188). -/
def defaultIndicatorLines : List String :=
  ["# Calculate indicators",
   "fast_ma = vbt.MA.run(price, 10, short_name=\x27fast\x27)",
   "slow_ma = vbt.MA.run(price, 30, short_name=\x27slow\x27)",
   "print(f\"Calculated moving averages: 10-day and 30-day\")"]

/-- The code line emitted for one indicator spec by
`_generate_indicators` (`strategy_code_generator.py`, lines 192-207). -/
def indicatorLine : CGInd → String
  | CGInd.MA p =>
    "ma_" ++ toString p ++ " = vbt.MA.run(price, " ++ toString p ++
      ", short_name=\x27ma_" ++ toString p ++ "\x27)"
  | CGInd.RSI p => "rsi = vbt.RSI.run(price, window=" ++ toString p ++ ")"
  | CGInd.MACD f s g =>
    "macd = vbt.MACD.run(price, fast_window=" ++ toString f ++
      ", slow_window=" ++ toString s ++ ", signal_window=" ++
      toString g ++ ")"
  | CGInd.BBANDS p std =>
    "bbands = vbt.BBANDS.run(price, window=" ++ toString p ++
      ", alpha=" ++ toString std ++ ")"

/-- `StrategyCodeGenerator._generate_indicators`
(`strategy_code_generator.py`, lines 179-209), as the list of generated
code lines. -/
def generateIndicators (entry_logic : EntryLogic) : List String :=
  if entry_logic.indicators.isEmpty then defaultIndicatorLines
  else "# Calculate indicators" :: entry_logic.indicators.map indicatorLine

/-- The code lines of the default branch of `_generate_signals`
(`strategy_code_generator.py`, lines 215-221). -/
def defaultSignalLines : List String :=
  ["# Generate signals",
   "entries = fast_ma.ma_crossed_above(slow_ma)",
   "exits = fast_ma.ma_crossed_below(slow_ma)",
   "print(f\"Entry signals: \x7bentries.sum()\x7d\")",
   "print(f\"Exit signals: \x7bexits.sum()\x7d\")"]

/-- The body of the non-default branch of `_generate_signals`
(`strategy_code_generator.py`, lines 227-242): with an MA spec present,
signal assignments are emitted only when at least two MA specs exist
(fast = first-minimal period, slow = first-maximal period); the RSI and
price-change fallback branches are reachable only when no MA spec was
parsed. -/
def signalBodyLines (indicators : List CGInd) : List String :=
  if indicators.any isMAInd then
    match indicators.filter isMAInd with
    | [] => []
    | m :: ms =>
      if 2 ≤ (m :: ms).length then
        let fast := indPeriod (pyMinBy indPeriod m ms)
        let slow := indPeriod (pyMaxBy indPeriod m ms)
        ["entries = ma_" ++ toString fast ++ ".ma_crossed_above(ma_" ++
           toString slow ++ ")",
         "exits = ma_" ++ toString fast ++ ".ma_crossed_below(ma_" ++
           toString slow ++ ")"]
      else []
  else if indicators.any isRSIInd then
    ["entries = rsi.rsi_crossed_below(30)  # Oversold",
     "exits = rsi.rsi_crossed_above(70)  # Overbought"]
  else
    ["entries = price.pct_change() < -0.05  # 5% drop",
     "exits = price.pct_change() > 0.05  # 5% gain"]

/-- `StrategyCodeGenerator._generate_signals`
(`strategy_code_generator.py`, lines 211-247), as the list of generated
code lines (its `exit_logic` and `risk_mgmt` arguments are unused in the
source body and omitted here). -/
def generateSignals (entry_logic : EntryLogic) : List String :=
  if entry_logic.indicators.isEmpty then defaultSignalLines
  else
    "# Generate signals" :: signalBodyLines entry_logic.indicators ++
      ["print(f\x27Entry signals: \x7bentries.sum()\x7d\x27)",
       "print(f\x27Exit signals: \x7bexits.sum()\x7d\x27)"]

/-- Does a generated code line assign the `entries` or `exits` signal
variable (start with `entries = ` or `exits = `)? -/
def assignsSignalVar (line : String) : Bool :=
  (litM ("entries = ".data) line.data).isSome ||
  (litM ("exits = ".data) line.data).isSome

/-- The accumulator of the node loop of `run_schema_backtest`
(`vectorbt_service.py`, lines 18-47). -/
structure VParsed where
  symbol : String
  stop_loss_pct : Option ℚ
  take_profit_pct : Option ℚ
  entry_rules : List String
deriving DecidableEq, Repr

def isVCategory (n : VNode) : Bool :=
  n.type = "category" || n.type = "crypto_category"

def isVEntry (n : VNode) : Bool :=
  n.type = "entry_condition" || n.type = "entry"

def isVTakeProfit (n : VNode) : Bool :=
  n.type = "take_profit" || n.type = "exit_target"

def isVStopLoss (n : VNode) : Bool :=
  n.type = "stop_loss"

/-- The symbol chosen by the category branch of the node loop
(`vectorbt_service.py`, lines 34-39). -/
def vSymbolOf (n : VNode) : String :=
  if (n.meta.category).getD "Bitcoin" = "Ethereum" ∨
      (n.meta.category).getD "Bitcoin" = "Layer1" then "ETH-USD"
  else "BTC-USD"

/-- One iteration of the node loop of `run_schema_backtest`
(`vectorbt_service.py`, lines 30-47), translated branch by branch. -/
def parse_node_step (st : VParsed) (n : VNode) : VParsed :=
  if isVCategory n then { st with symbol := vSymbolOf n }
  else if isVEntry n then
    { st with entry_rules := st.entry_rules ++ (n.meta.rules).getD [] }
  else if isVTakeProfit n then
    { st with take_profit_pct := some ((n.meta.target_pct).getD 7) }
  else if isVStopLoss n then
    { st with stop_loss_pct := some ((n.meta.stop_pct).getD 5) }
  else st

/-- The node loop of `run_schema_backtest` (`vectorbt_service.py`,
lines 18-47).  Every matching node overwrites the running value, so for
the symbol, stop-loss and take-profit the last matching node wins, while
entry rules accumulate across all entry nodes.  A present take-profit
(stop-loss) node with an absent meta key contributes the default
7.0 (5.0). -/
def parse_schema_nodes (nodes : List VNode) : VParsed :=
  nodes.foldl parse_node_step
    { symbol := "BTC-USD", stop_loss_pct := none, take_profit_pct := none
      entry_rules := [] }

/-! ### Equity series, mock data and CAGR -/

/-- `EquityPoint` from `app/models.py`; the `date` string
(`strftime("%Y-%m-%d")`) is modelled as the bar's calendar-day number,
whose order agrees with the lexicographic order of the formatted
strings. -/
structure EquityPoint where
  date : ℤ
  value : ℚ
  benchmark : Option ℚ
  btc_price : Option ℚ
deriving DecidableEq, Repr

/-- `VectorBTBacktestService._create_equity_series`
(`vectorbt_service.py`, lines 344-378): one `EquityPoint` per bar of the
portfolio-value series, in index order; benchmark and price values are
taken positionally when in range (`None` past the end), an NaN price
(modelled `none`) becomes `none`. -/
def create_equity_series :
    List (ℤ × ℚ) → List ℚ → List (Option ℚ) → List EquityPoint
  | [], _, _ => []
  | (d, v) :: pv, bench, btc =>
    { date := d
      value := round2 v
      benchmark := bench.head?.map round2
      btc_price :=
        match btc.head? with
        | some (some b) => some (round2 b)
        | _ => none } ::
      create_equity_series pv (bench.drop 1) (btc.drop 1)

/-- The loop body of `BacktestService._generate_equity_curve`
(`backtest_service.py`, lines 70-84): at step `i` the running values are
multiplied by `1 + change` before the point is appended, and the point's
date is the calendar day of `start + i * (days / num_points)`.  The
`random.uniform` draws are abstracted as the streams `change` and
`bchange`. -/
def gen_curve_aux (startT : ℚ) (step : ℚ) (change bchange : ℕ → ℚ) :
    ℚ → ℚ → ℕ → ℕ → List EquityPoint
  | _, _, _, 0 => []
  | cur, bench, i, n + 1 =>
    let cur' := cur * (1 + change i)
    let bench' := bench * (1 + bchange i)
    { date := ⌊startT + (i : ℚ) * step⌋
      value := round2 cur'
      benchmark := some (round2 bench')
      btc_price := none } ::
      gen_curve_aux startT step change bchange cur' bench' (i + 1) n

/-- `BacktestService._generate_equity_curve`
(`backtest_service.py`, lines 58-86): `days` is the floor of the
timestamp difference in days (`(end - start).days`), at most 100 points
are generated, and the step between consecutive timestamps is
`days / num_points` days.  Timestamps are rationals counting days since
an epoch. -/
def generate_equity_curve (initial_capital : ℚ) (startT endT : ℚ)
    (change bchange : ℕ → ℚ) : List EquityPoint :=
  let days : ℤ := ⌊endT - startT⌋
  let num_points : ℤ := min days 100
  gen_curve_aux startT ((days : ℚ) / (num_points : ℚ)) change bchange
    initial_capital initial_capital 0 num_points.toNat

/-- `VectorBTBacktestService._generate_mock_btc_data`
(`vectorbt_service.py`, lines 478-504): one price per calendar day from
`start_date` to `end_date` inclusive.  The prices are draws from a
seeded Gaussian random walk in floating point, abstracted as the stream
`vals`; the claims below depend only on the series being substituted,
not on its values. -/
def generate_mock_btc_data (vals : ℕ → ℚ) (startD endD : ℤ) :
    List (ℤ × ℚ) :=
  if endD < startD then []
  else (List.range (endD - startD + 1).toNat).map fun (i : ℕ) =>
    (startD + (i : ℤ), vals i)

/-- The price-acquisition step of `run_schema_backtest`
(`vectorbt_service.py`, lines 49-62): `downloaded = none` models a
download exception or a missing `Close` column, `some []` an empty
series (both raise inside the `try`); in every such case the handler
silently substitutes `_generate_mock_btc_data` and the run proceeds —
nothing is surfaced to the caller. -/
def fetch_price_step (vals : ℕ → ℚ) (startD endD : ℤ)
    (downloaded : Option (List (ℤ × ℚ))) : List (ℤ × ℚ) :=
  match downloaded with
  | some l =>
    if l.isEmpty then generate_mock_btc_data vals startD endD else l
  | none => generate_mock_btc_data vals startD endD

/-- The CAGR computation of `run_schema_backtest`
(`vectorbt_service.py`, lines 131-132): `years = days / 365.25`, and
`cagr = ((final_value / initial_capital) ** (1 / years) - 1) * 100` when
`years > 0`, else 0.  Floating-point exponentiation is abstracted as the
parameter `fpow`. -/
def cagr_vbt (fpow : ℚ → ℚ → ℚ) (final_value initial_capital : ℚ)
    (days : ℤ) : ℚ :=
  let years : ℚ := (days : ℚ) / 365.25
  if 0 < years then
    (fpow (final_value / initial_capital) (1 / years) - 1) * 100
  else 0

/-- `BacktestService._calculate_cagr` (`backtest_service.py`,
lines 114-118), with the same abstraction of `**` as `cagr_vbt` and the
result rounded to one decimal as in the source. -/
def calculate_cagr (fpow : ℚ → ℚ → ℚ) (initial final_value years : ℚ) :
    ℚ :=
  if years ≤ 0 ∨ initial ≤ 0 then 0
  else round1 ((fpow (final_value / initial) (1 / years) - 1) * 100)

/-! ### Theorems -/

lemma pyMinQ_eq_min (a b : ℚ) : pyMinQ a b = min a b := by
  simp [pyMinQ, min_def]

lemma pyMaxQ_eq_max (a b : ℚ) : pyMaxQ a b = max a b := by
  simp [pyMaxQ, max_def]

/-- C3: for every (strategy, metrics, confidence) input, the computed
performance score equals the weighted sum
`risk_adjusted_return*0.4 + consistency_score*100*0.3 +
market_adaptability*100*0.2 + confidence*100*0.1` clamped to [0, 100],
where the risk-adjusted return is `sharpe_ratio * total_return`. -/
theorem C3_performance_score_formula (s : StrategyInput)
    (m : BacktestMetrics) (r0 : ℤ) :
    (calculate_performance_ranking s m r0).performance_score =
      max 0 (min 100
        ((calculate_performance_ranking s m r0).risk_adjusted_return * 0.4 +
         (calculate_performance_ranking s m r0).consistency_score * 100 * 0.3 +
         (calculate_performance_ranking s m r0).market_adaptability * 100 * 0.2 +
         s.confidence_score * 100 * 0.1)) ∧
    (calculate_performance_ranking s m r0).risk_adjusted_return =
      m.sharpe_ratio * m.total_return := by
  refine ⟨?_, rfl⟩
  show pyMaxQ 0 (pyMinQ 100 _) = max 0 (min 100 _)
  rw [pyMinQ_eq_min, pyMaxQ_eq_max]
  rfl

/-- A metrics record whose drawdown magnitude exceeds 100%. -/
def metricsDeepDD : BacktestMetrics :=
  { total_amount_invested := 10000, total_gain := 0, total_loss := 0
    total_return := 10, cagr := 0, sharpe_ratio := 1, max_drawdown := -150
    max_drawdown_duration := 0, win_rate := 50, trades := 10
    vs_benchmark := 0 }

/-- C6 counterexample: with `win_rate = 50` and `max_drawdown = -150`,
the computed consistency score is `(50/100) * (1 - 150/100) = -1/4`,
which is negative — the claimed clamp of `consistency_score` to [0, 1]
does not exist in the code. -/
theorem C6_counterexample :
    (calculate_performance_ranking ⟨some "s1", "n1", 1/2⟩ metricsDeepDD 1).consistency_score
        = -(1/4) ∧
    (calculate_performance_ranking ⟨some "s1", "n1", 1/2⟩ metricsDeepDD 1).consistency_score
        < 0 := by
  constructor
  · norm_num [calculate_performance_ranking, metricsDeepDD]
  · norm_num [calculate_performance_ranking, metricsDeepDD]

/-- C6 (amended): the consistency score equals
`(win_rate/100) * (1 - |max_drawdown|/100)` with no clamping, so it can
leave [0, 1] when the drawdown magnitude exceeds 100%. -/
theorem C6_consistency_unclamped (s : StrategyInput)
    (m : BacktestMetrics) (r0 : ℤ) :
    (calculate_performance_ranking s m r0).consistency_score =
      (m.win_rate / 100) * (1 - |m.max_drawdown| / 100) := rfl

/-- C2 counterexample: an empty downloaded price series does not fail —
`run_schema_backtest` silently substitutes the generated mock series
(here 10 bars for a 10-day range) and proceeds normally; no `InputError`
is surfaced (no such error exists in the code). -/
theorem C2_counterexample :
    fetch_price_step (fun _ => 30000) 0 9 (some []) =
      generate_mock_btc_data (fun _ => 30000) 0 9 ∧
    (generate_mock_btc_data (fun _ => (30000 : ℚ)) 0 9).length = 10 := by
  constructor
  · rfl
  · rfl

/-- C2 (amended): when the download raises or yields a missing or empty
price series, `run_schema_backtest` recovers by substituting the
generated mock data (a nonempty series for any nonempty date range) and
proceeds; a nonempty downloaded series is used as is.  The call never
fails with an `InputError` on an empty price series. -/
theorem C2_mock_substitution (vals : ℕ → ℚ) (s e : ℤ)
    (l : List (ℤ × ℚ)) :
    fetch_price_step vals s e none = generate_mock_btc_data vals s e ∧
    fetch_price_step vals s e (some []) = generate_mock_btc_data vals s e ∧
    (l ≠ [] → fetch_price_step vals s e (some l) = l) ∧
    (s ≤ e → generate_mock_btc_data vals s e ≠ []) := by
  refine ⟨rfl, rfl, ?_, ?_⟩
  · intro hl
    simp [fetch_price_step, List.isEmpty_iff, hl]
  · intro hse
    simp only [generate_mock_btc_data, if_neg (not_lt.mpr hse)]
    intro hcon
    have hlen := congrArg List.length hcon
    simp only [List.length_map, List.length_range, List.length_nil] at hlen
    omega

/-- C2 witness: the amended statement evaluated at a concrete input. -/
theorem C2_mock_substitution_witness :
    fetch_price_step (fun _ => 30000) 0 9 (some [(0, 1)]) = [(0, 1)] ∧
    generate_mock_btc_data (fun _ => (30000 : ℚ)) 0 9 ≠ [] := by
  have h := C2_mock_substitution (fun _ => 30000) 0 9 [(0, 1)]
  exact ⟨h.2.2.1 (by decide), h.2.2.2 (by decide)⟩

/-- C9: the CAGR computations guard the day count: with a positive
number of elapsed days the exponent `1 / (days / 365.25)` equals
`365.25 / days` and the stated formula is computed; with a
non-positive day count (or, in `_calculate_cagr`, a non-positive year
count) the result is 0 and no division or exponentiation is
performed. -/
theorem C9_cagr_guard (fpow : ℚ → ℚ → ℚ) (f c : ℚ) (d : ℤ)
    (years i fv : ℚ) :
    (0 < d → cagr_vbt fpow f c d =
      (fpow (f / c) (365.25 / (d : ℚ)) - 1) * 100) ∧
    (d ≤ 0 → cagr_vbt fpow f c d = 0) ∧
    (0 < years → 0 < i → calculate_cagr fpow i fv years =
      round1 ((fpow (fv / i) (1 / years) - 1) * 100)) ∧
    (years ≤ 0 → calculate_cagr fpow i fv years = 0) := by
  refine ⟨?_, ?_, ?_, ?_⟩
  · intro hd
    have hd' : (0 : ℚ) < (d : ℚ) := by exact_mod_cast hd
    have hy : (0 : ℚ) < (d : ℚ) / 365.25 := by positivity
    have hx : 1 / ((d : ℚ) / 365.25) = 365.25 / (d : ℚ) := by
      rw [one_div_div]
    simp only [cagr_vbt, if_pos hy, hx]
  · intro hd
    have hd' : (d : ℚ) ≤ 0 := by exact_mod_cast hd
    have hy : ¬(0 : ℚ) < (d : ℚ) / 365.25 := by
      rw [not_lt]
      have h365 : (0 : ℚ) < 365.25 := by norm_num
      exact div_nonpos_of_nonpos_of_nonneg hd' (le_of_lt h365)
    simp only [cagr_vbt, if_neg hy]
  · intro hy hi
    have hcond : ¬(years ≤ 0 ∨ i ≤ 0) := by
      push_neg
      exact ⟨hy, hi⟩
    simp only [calculate_cagr, if_neg hcond]
  · intro hy
    simp only [calculate_cagr, if_pos (Or.inl hy)]

/-- C9 witness: the guard behavior evaluated with a concrete
exponentiation function at days = 730, days = -5, years = 1 and
years = 0. -/
theorem C9_cagr_guard_witness :
    cagr_vbt (fun a b => a * b) 2 1 730 =
      ((2 / 1) * (365.25 / 730) - 1) * 100 ∧
    cagr_vbt (fun a b => a * b) 2 1 (-5) = 0 ∧
    calculate_cagr (fun a b => a * b) 1 2 1 =
      round1 ((2 / 1 * (1 / 1) - 1) * 100) ∧
    calculate_cagr (fun a b => a * b) 1 2 0 = 0 := by
  refine ⟨?_, ?_, ?_, ?_⟩
  · have h := (C9_cagr_guard (fun a b => a * b) 2 1 730 1 1 2).1
      (by norm_num)
    simpa using h
  · exact (C9_cagr_guard (fun a b => a * b) 2 1 (-5) 1 1 2).2.1
      (by norm_num)
  · exact (C9_cagr_guard (fun a b => a * b) 2 1 730 1 1 2).2.2.1
      (by norm_num) (by norm_num)
  · exact (C9_cagr_guard (fun a b => a * b) 2 1 730 0 1 2).2.2.2
      (by norm_num)

/-- Descending order on performance scores. -/
def scoreGe (a b : StrategyPerformanceRanking) : Prop :=
  b.performance_score ≤ a.performance_score

lemma insertByScoreDesc_perm (x : StrategyPerformanceRanking)
    (l : List StrategyPerformanceRanking) :
    (insertByScoreDesc x l).Perm (x :: l) := by
  induction l with
  | nil => exact List.Perm.refl _
  | cons y ys ih =>
    unfold insertByScoreDesc
    split
    · exact List.Perm.refl _
    · exact (List.Perm.cons y ih).trans (List.Perm.swap x y ys)

lemma pairwise_insertByScoreDesc (x : StrategyPerformanceRanking)
    {l : List StrategyPerformanceRanking}
    (h : List.Pairwise scoreGe l) :
    List.Pairwise scoreGe (insertByScoreDesc x l) := by
  induction l with
  | nil => simp [insertByScoreDesc, scoreGe]
  | cons y ys ih =>
    rcases List.pairwise_cons.mp h with ⟨hy, hys⟩
    unfold insertByScoreDesc
    split
    · rename_i h1
      refine List.pairwise_cons.mpr ⟨?_, h⟩
      intro z hz
      rcases List.mem_cons.mp hz with hzy | hzys
      · subst hzy
        exact h1
      · exact le_trans (hy z hzys) h1
    · rename_i h1
      refine List.pairwise_cons.mpr ⟨?_, ih hys⟩
      intro z hz
      have hz' := (insertByScoreDesc_perm x ys).subset hz
      rcases List.mem_cons.mp hz' with hzx | hzys
      · subst hzx
        exact le_of_not_le h1
      · exact hy z hzys

lemma sortRankings_perm (l : List StrategyPerformanceRanking) :
    (sortRankings l).Perm l := by
  induction l with
  | nil => exact List.Perm.refl _
  | cons x xs ih =>
    exact (insertByScoreDesc_perm x (sortRankings xs)).trans
      (List.Perm.cons x ih)

lemma pairwise_sortRankings (l : List StrategyPerformanceRanking) :
    List.Pairwise scoreGe (sortRankings l) := by
  induction l with
  | nil => simp [sortRankings]
  | cons x xs ih => exact pairwise_insertByScoreDesc x ih

lemma update_ranks_aux_map_proj (i : ℤ)
    (l : List StrategyPerformanceRanking) :
    ((update_ranks_aux i l).map fun r =>
        (r.strategy_id, r.performance_score)) =
      l.map fun r => (r.strategy_id, r.performance_score) := by
  induction l generalizing i with
  | nil => rfl
  | cons r rs ih => simp [update_ranks_aux, ih]

lemma update_ranks_aux_length (i : ℤ)
    (l : List StrategyPerformanceRanking) :
    (update_ranks_aux i l).length = l.length := by
  induction l generalizing i with
  | nil => rfl
  | cons r rs ih => simp [update_ranks_aux, ih]

lemma update_ranks_aux_rank (i : ℤ)
    (l : List StrategyPerformanceRanking) (j : ℕ)
    (h : j < (update_ranks_aux i l).length) :
    ((update_ranks_aux i l).get ⟨j, h⟩).rank = i + j + 1 := by
  induction l generalizing i j with
  | nil => simp [update_ranks_aux] at h
  | cons r rs ih =>
    cases j with
    | zero => simp [update_ranks_aux]
    | succ k =>
      have hk : k < (update_ranks_aux (i + 1) rs).length := by
        simpa [update_ranks_aux] using h
      have := ih (i + 1) k hk
      simp only [update_ranks_aux, List.get] at this ⊢
      rw [this]
      push_cast
      ring

/-- Two strategies whose clamped performance scores tie at 100 but whose
drawdowns differ. -/
def metricsTieShallowDD : BacktestMetrics :=
  { total_amount_invested := 10000, total_gain := 0, total_loss := 0
    total_return := 100, cagr := 0, sharpe_ratio := 10, max_drawdown := -5
    max_drawdown_duration := 0, win_rate := 50, trades := 100
    vs_benchmark := 0 }

def metricsTieDeepDD : BacktestMetrics :=
  { metricsTieShallowDD with max_drawdown := -50 }

/-- Batch input listing the deep-drawdown strategy "b" before the
shallow-drawdown strategy "a"; both tie at score 100. -/
def tiePairs : List (StrategyInput × Option BacktestMetrics) :=
  [(⟨some "b", "B", 1/2⟩, some metricsTieDeepDD),
   (⟨some "a", "A", 1/2⟩, some metricsTieShallowDD)]

/-- C4 counterexample: on a tie in `performance_score` the code keeps
the input order (Python's stable sort on the score key alone), so the
strategy with the larger drawdown magnitude and the larger id stays
first — there is no tie-break by drawdown magnitude or by strategy id. -/
theorem C4_counterexample :
    ((run_autonomous_rank tiePairs).map fun r => r.strategy_id) =
      ["b", "a"] ∧
    (calculate_performance_ranking ⟨some "b", "B", 1/2⟩ metricsTieDeepDD
        1).performance_score =
      (calculate_performance_ranking ⟨some "a", "A", 1/2⟩
        metricsTieShallowDD 2).performance_score ∧
    |metricsTieShallowDD.max_drawdown| <
      |metricsTieDeepDD.max_drawdown| := by
  have hb : (calculate_performance_ranking ⟨some "b", "B", 1/2⟩
      metricsTieDeepDD 1).performance_score = 100 := by
    simp only [calculate_performance_ranking, metricsTieDeepDD,
      metricsTieShallowDD]
    norm_num [pyMinQ, pyMaxQ]
  have ha : (calculate_performance_ranking ⟨some "a", "A", 1/2⟩
      metricsTieShallowDD 2).performance_score = 100 := by
    simp only [calculate_performance_ranking, metricsTieShallowDD]
    norm_num [pyMinQ, pyMaxQ]
  have hbuild : buildRankings tiePairs =
      [calculate_performance_ranking ⟨some "b", "B", 1/2⟩
        metricsTieDeepDD 1,
       calculate_performance_ranking ⟨some "a", "A", 1/2⟩
        metricsTieShallowDD 2] := rfl
  have hsort : sortRankings (buildRankings tiePairs) =
      [calculate_performance_ranking ⟨some "b", "B", 1/2⟩
        metricsTieDeepDD 1,
       calculate_performance_ranking ⟨some "a", "A", 1/2⟩
        metricsTieShallowDD 2] := by
    rw [hbuild]
    simp only [sortRankings, insertByScoreDesc]
    rw [if_pos]
    rw [ha, hb]
  refine ⟨?_, ?_, ?_⟩
  · show ((update_ranks (sortRankings (buildRankings tiePairs))).map
      fun r => r.strategy_id) = ["b", "a"]
    rw [hsort]
    rfl
  · rw [ha, hb]
  · show |(-5 : ℚ)| < |(-50 : ℚ)|
    norm_num

/-- C4 (amended): the returned list is sorted descending by
`performance_score` only — equal scores keep their input order (stable
sort), with no tie-break by drawdown or strategy id — each entry's rank
is reassigned to its 1-based position, and the output is a permutation
of the scored entries. -/
theorem C4_sorted_and_ranks_reassigned
    (pairs : List (StrategyInput × Option BacktestMetrics)) :
    List.Pairwise (fun x y : ℚ => y ≤ x)
      ((run_autonomous_rank pairs).map fun r => r.performance_score) ∧
    (∀ j (h : j < (run_autonomous_rank pairs).length),
      ((run_autonomous_rank pairs).get ⟨j, h⟩).rank = (j : ℤ) + 1) ∧
    ((run_autonomous_rank pairs).map fun r =>
        (r.strategy_id, r.performance_score)).Perm
      ((buildRankings pairs).map fun r =>
        (r.strategy_id, r.performance_score)) := by
  refine ⟨?_, ?_, ?_⟩
  · have hmap :
        ((run_autonomous_rank pairs).map fun r => r.performance_score) =
          (sortRankings (buildRankings pairs)).map fun r =>
            r.performance_score := by
      have h1 := update_ranks_aux_map_proj 0
        (sortRankings (buildRankings pairs))
      have h2 := congrArg (List.map Prod.snd) h1
      simpa [run_autonomous_rank, update_ranks, List.map_map,
        Function.comp] using h2
    rw [hmap]
    have hp := pairwise_sortRankings (buildRankings pairs)
    rw [List.pairwise_map]
    exact hp.imp fun h => h
  · intro j h
    have := update_ranks_aux_rank 0
      (sortRankings (buildRankings pairs)) j (by
        simpa [run_autonomous_rank, update_ranks] using h)
    simp only [run_autonomous_rank, update_ranks] at h ⊢
    rw [this]
    ring
  · have h1 := update_ranks_aux_map_proj 0
      (sortRankings (buildRankings pairs))
    have h2 : ((run_autonomous_rank pairs).map fun r =>
        (r.strategy_id, r.performance_score)) =
        ((sortRankings (buildRankings pairs)).map fun r =>
          (r.strategy_id, r.performance_score)) := by
      simpa [run_autonomous_rank, update_ranks] using h1
    rw [h2]
    exact (sortRankings_perm (buildRankings pairs)).map _

/-- C4 witness: the amended statement evaluated on the concrete tied
batch. -/
theorem C4_sorted_and_ranks_witness :
    List.Pairwise (fun x y : ℚ => y ≤ x)
      ((run_autonomous_rank tiePairs).map fun r => r.performance_score) ∧
    ((run_autonomous_rank tiePairs).map fun r => r.rank) = [1, 2] := by
  refine ⟨(C4_sorted_and_ranks_reassigned tiePairs).1, ?_⟩
  have hlen : (run_autonomous_rank tiePairs).length = 2 := by
    show (update_ranks_aux 0 (sortRankings (buildRankings tiePairs))).length
      = 2
    rw [update_ranks_aux_length,
      (sortRankings_perm (buildRankings tiePairs)).length_eq]
    rfl
  apply List.ext_get
  · rw [List.length_map, hlen]
    rfl
  · intro n h₁ h₂
    rw [List.get_map]
    have hn : n < 2 := by simpa [List.length_map, hlen] using h₁
    interval_cases n
    · have h := (C4_sorted_and_ranks_reassigned tiePairs).2.1 0
        (by rw [hlen]; omega)
      simpa using h
    · have h := (C4_sorted_and_ranks_reassigned tiePairs).2.1 1
        (by rw [hlen]; omega)
      simpa using h

lemma create_equity_series_length (pv : List (ℤ × ℚ)) (bench : List ℚ)
    (btc : List (Option ℚ)) :
    (create_equity_series pv bench btc).length = pv.length := by
  induction pv generalizing bench btc with
  | nil => rfl
  | cons p pv ih =>
    cases p
    simp [create_equity_series, ih]

lemma create_equity_series_map_date (pv : List (ℤ × ℚ)) (bench : List ℚ)
    (btc : List (Option ℚ)) :
    ((create_equity_series pv bench btc).map fun p => p.date) =
      pv.map Prod.fst := by
  induction pv generalizing bench btc with
  | nil => rfl
  | cons p pv ih =>
    cases p
    simp [create_equity_series, ih]

lemma gen_curve_aux_succ (startT step : ℚ) (change bchange : ℕ → ℚ)
    (cur bench : ℚ) (i n : ℕ) :
    gen_curve_aux startT step change bchange cur bench i (n + 1) =
      { date := ⌊startT + (i : ℚ) * step⌋
        value := round2 (cur * (1 + change i))
        benchmark := some (round2 (bench * (1 + bchange i)))
        btc_price := none } ::
        gen_curve_aux startT step change bchange (cur * (1 + change i))
          (bench * (1 + bchange i)) (i + 1) n := rfl

lemma gen_curve_aux_chain (startT step : ℚ) (change bchange : ℕ → ℚ)
    (hstep : 1 ≤ step) :
    ∀ (n : ℕ) (cur bench : ℚ) (i : ℕ),
      List.Chain' (fun a b : ℤ => a < b)
        ((gen_curve_aux startT step change bchange cur bench i n).map
          fun p => p.date) := by
  intro n
  induction n with
  | zero => intro cur bench i; simp [gen_curve_aux]
  | succ n ih =>
    intro cur bench i
    cases n with
    | zero => simp [gen_curve_aux]
    | succ m =>
      rw [gen_curve_aux_succ, gen_curve_aux_succ, List.map_cons,
        List.map_cons, List.chain'_cons]
      constructor
      · show ⌊startT + (i : ℚ) * step⌋ < ⌊startT + ((i + 1 : ℕ) : ℚ) * step⌋
        have hle : startT + (i : ℚ) * step + 1 ≤
            startT + ((i + 1 : ℕ) : ℚ) * step := by
          push_cast
          nlinarith [hstep]
        have h1 : ⌊startT + (i : ℚ) * step⌋ + 1 ≤
            ⌊startT + ((i + 1 : ℕ) : ℚ) * step⌋ := by
          rw [← Int.floor_add_one]
          exact Int.floor_le_floor hle
        omega
      · have ihh := ih (cur * (1 + change i)) (bench * (1 + bchange i))
          (i + 1)
        rw [gen_curve_aux_succ, List.map_cons] at ihh
        exact ihh

lemma generate_equity_curve_chain (ic s e : ℚ) (c b : ℕ → ℚ) :
    List.Chain' (fun a b : ℤ => a < b)
      ((generate_equity_curve ic s e c b).map fun p => p.date) := by
  simp only [generate_equity_curve]
  by_cases h : (min ⌊e - s⌋ 100).toNat = 0
  · rw [h]
    simp [gen_curve_aux]
  · have hpos : 0 < (min ⌊e - s⌋ 100).toNat := Nat.pos_of_ne_zero h
    have hnp0 : (0 : ℤ) < min ⌊e - s⌋ 100 := by omega
    have hd : min ⌊e - s⌋ 100 ≤ ⌊e - s⌋ := min_le_left _ _
    have hstep : 1 ≤ ((⌊e - s⌋ : ℚ)) / ((min ⌊e - s⌋ 100 : ℤ) : ℚ) := by
      rw [le_div_iff (by exact_mod_cast hnp0)]
      rw [one_mul]
      exact_mod_cast hd
    exact gen_curve_aux_chain _ _ _ _ hstep _ _ _ _

/-- C1: every successful simulation emits exactly one equity point per
price bar, in the bar order of the price series (the dates of the output
are exactly the bar dates), so with chronologically ascending bars the
equity dates are strictly ascending; the mock generator
`_generate_equity_curve` likewise always produces strictly ascending
dates (its time step is at least one day). -/
theorem C1_one_point_per_bar_ascending (pv : List (ℤ × ℚ))
    (bench : List ℚ) (btc : List (Option ℚ))
    (hasc : List.Chain' (fun a b : ℤ => a < b) (pv.map Prod.fst)) :
    (create_equity_series pv bench btc).length = pv.length ∧
    ((create_equity_series pv bench btc).map fun p => p.date) =
      pv.map Prod.fst ∧
    List.Chain' (fun a b : ℤ => a < b)
      ((create_equity_series pv bench btc).map fun p => p.date) ∧
    ∀ (ic s e : ℚ) (c b : ℕ → ℚ),
      List.Chain' (fun a b : ℤ => a < b)
        ((generate_equity_curve ic s e c b).map fun p => p.date) := by
  refine ⟨create_equity_series_length pv bench btc,
    create_equity_series_map_date pv bench btc, ?_,
    fun ic s e c b => generate_equity_curve_chain ic s e c b⟩
  rw [create_equity_series_map_date]
  exact hasc

/-- C1 witness: a two-bar series with ascending dates. -/
theorem C1_one_point_per_bar_witness :
    (create_equity_series [(0, 100), (1, 110)] [100] [none]).length = 2 ∧
    ((create_equity_series [(0, 100), (1, 110)] [100] [none]).map
      fun p => p.date) = [0, 1] ∧
    List.Chain' (fun a b : ℤ => a < b)
      ((create_equity_series [(0, 100), (1, 110)] [100] [none]).map
        fun p => p.date) := by
  have h := C1_one_point_per_bar_ascending [(0, 100), (1, 110)] [100]
    [none] (by norm_num [List.chain'_cons])
  exact ⟨h.1, h.2.1, h.2.2.1⟩

lemma findSome?_eq_none_of_all {α β : Type} (f : α → Option β)
    (l : List α) (h : ∀ a ∈ l, f a = none) : l.findSome? f = none := by
  induction l with
  | nil => rfl
  | cons x xs ih =>
    rw [List.findSome?_cons, h x (List.mem_cons_self x xs)]
    exact ih fun a ha => h a (List.mem_cons_of_mem x ha)

/-- C5: when no rule string matches any of the MA-crossover or RSI
patterns (in particular for an empty rules list), `run_schema_backtest`
deterministically falls back to the 10/30 MA crossover signal rule, and
the code generator (whose indicator parser likewise recognised nothing)
emits the default 10/30 MA indicator and crossover signal code — the
fallback always yields a rule, never a silent absence. -/
theorem C5_default_ma_crossover (rules : List String)
    (h1 : ∀ r ∈ rules, maMatch r = none)
    (h2 : ∀ r ∈ rules, rsiMatch r = none)
    (h3 : parseIndicatorsFromRules rules = []) :
    chooseSignals rules = SignalChoice.maCross 10 30 ∧
    generateIndicators ⟨"manual", rules, parseIndicatorsFromRules rules⟩ =
      defaultIndicatorLines ∧
    generateSignals ⟨"manual", rules, parseIndicatorsFromRules rules⟩ =
      defaultSignalLines := by
  refine ⟨?_, ?_, ?_⟩
  · unfold chooseSignals
    rw [findSome?_eq_none_of_all maMatch rules h1,
      findSome?_eq_none_of_all rsiMatch rules h2]
  · simp [generateIndicators, h3]
  · simp [generateSignals, h3]

/-- C5 witness: a rule string with no recognizable pattern. -/
theorem C5_default_ma_crossover_witness :
    chooseSignals ["hold forever"] = SignalChoice.maCross 10 30 ∧
    generateSignals ⟨"manual", ["hold forever"],
      parseIndicatorsFromRules ["hold forever"]⟩ = defaultSignalLines := by
  have h := C5_default_ma_crossover ["hold forever"] (by decide)
    (by decide) (by decide)
  exact ⟨h.1, h.2.2⟩

/-- C10: when the indicator parser extracts exactly one MA spec and no
RSI spec from the entry rules, `_generate_signals` emits no assignment
to `entries` or `exits` at all: the MA-crossover branch requires two MA
specs, and the RSI and price-change fallback branches are unreachable
because an MA spec is present. -/
theorem C10_single_ma_no_signal_assignments (mode : String)
    (rules : List String)
    (h1 : ((parseIndicatorsFromRules rules).filter isMAInd).length = 1)
    (h2 : (parseIndicatorsFromRules rules).filter isRSIInd = []) :
    generateSignals ⟨mode, rules, parseIndicatorsFromRules rules⟩ =
      ["# Generate signals",
       "print(f\x27Entry signals: \x7bentries.sum()\x7d\x27)",
       "print(f\x27Exit signals: \x7bexits.sum()\x7d\x27)"] ∧
    ∀ line ∈ generateSignals ⟨mode, rules, parseIndicatorsFromRules rules⟩,
      assignsSignalVar line = false := by
  obtain ⟨m, hm⟩ : ∃ m, (parseIndicatorsFromRules rules).filter isMAInd
      = [m] := by
    cases hf : (parseIndicatorsFromRules rules).filter isMAInd with
    | nil =>
      rw [hf] at h1
      simp at h1
    | cons x xs =>
      cases xs with
      | nil => exact ⟨x, rfl⟩
      | cons y ys =>
        rw [hf] at h1
        simp at h1
  have hmem : m ∈ parseIndicatorsFromRules rules := by
    have hin : m ∈ (parseIndicatorsFromRules rules).filter isMAInd := by
      rw [hm]
      exact List.mem_singleton_self m
    exact List.mem_of_mem_filter hin
  have hne : parseIndicatorsFromRules rules ≠ [] := by
    intro hc
    rw [hc] at hm
    simp at hm
  have hany : (parseIndicatorsFromRules rules).any isMAInd = true := by
    rw [List.any_eq_true]
    refine ⟨m, hmem, ?_⟩
    have hin : m ∈ (parseIndicatorsFromRules rules).filter isMAInd := by
      rw [hm]
      exact List.mem_singleton_self m
    exact List.of_mem_filter hin
  have hmain : generateSignals ⟨mode, rules, parseIndicatorsFromRules rules⟩
      = ["# Generate signals",
         "print(f\x27Entry signals: \x7bentries.sum()\x7d\x27)",
         "print(f\x27Exit signals: \x7bexits.sum()\x7d\x27)"] := by
    unfold generateSignals signalBodyLines
    rw [if_neg (by simpa [List.isEmpty_iff] using hne)]
    rw [if_pos hany, hm]
    norm_num
  refine ⟨hmain, ?_⟩
  rw [hmain]
  decide

/-- C10 witness: a single parsed MA indicator. -/
theorem C10_single_ma_witness :
    generateSignals ⟨"manual", ["enter at the 20-day moving average"],
      parseIndicatorsFromRules ["enter at the 20-day moving average"]⟩ =
      ["# Generate signals",
       "print(f\x27Entry signals: \x7bentries.sum()\x7d\x27)",
       "print(f\x27Exit signals: \x7bexits.sum()\x7d\x27)"] := by
  exact (C10_single_ma_no_signal_assignments "manual"
    ["enter at the 20-day moving average"] (by decide) (by decide)).1

lemma find?_append_some {α : Type} (p : α → Bool) (l₁ l₂ : List α) :
    (l₁ ++ l₂).find? p =
      ((l₁.find? p).orElse fun _ => l₂.find? p) := by
  induction l₁ with
  | nil => simp
  | cons x t ih =>
    by_cases hx : p x
    · simp [List.find?_cons_of_pos _ hx, Option.orElse]
    · simp only [List.cons_append, List.find?_cons_of_neg _ hx, ih]

/-- A fold that overwrites its accumulator at every element satisfying
`p` ends at the value of the last such element. -/
lemma foldl_if_overwrite {α β : Type} (p : α → Bool) (g : α → β) :
    ∀ (l : List α) (init : β),
      l.foldl (fun acc n => if p n then g n else acc) init =
        (match l.reverse.find? p with
         | some n => g n
         | none => init) := by
  intro l
  induction l with
  | nil => intro init; rfl
  | cons x t ih =>
    intro init
    rw [List.foldl_cons, ih, List.reverse_cons, find?_append_some]
    cases h : t.reverse.find? p with
    | some n => rfl
    | none =>
      by_cases hx : p x
      · simp [List.find?_cons_of_pos _ hx, hx, Option.orElse]
      · simp [List.find?_cons_of_neg _ hx, hx, Option.orElse]

lemma buildNodesDict_go (nodes : List CGNode) :
    ∀ acc : List CGNode,
      (((acc ++ nodes).map fun n => n.id).Nodup) →
        nodes.foldl insertNodeDict acc = acc ++ nodes := by
  induction nodes with
  | nil => intro acc _; simp
  | cons x t ih =>
    intro acc h
    rw [List.foldl_cons]
    have hx : (acc.any fun m => m.id = x.id) = false := by
      rw [Bool.eq_false_iff]
      intro hc
      rw [List.any_eq_true] at hc
      obtain ⟨m, hm, hmx⟩ := hc
      have hmx' : m.id = x.id := by simpa using hmx
      rw [List.map_append, List.nodup_append] at h
      have hmem1 : x.id ∈ acc.map fun n => n.id := by
        rw [← hmx']
        exact List.mem_map_of_mem (fun n => n.id) hm
      have hmem2 : x.id ∈ (x :: t).map fun n => n.id := by simp
      exact h.2.2 hmem1 hmem2
    have hstep : insertNodeDict acc x = acc ++ [x] := by
      simp [insertNodeDict, hx]
    rw [hstep]
    have h' : (((acc ++ [x]) ++ t).map fun n => n.id).Nodup := by
      simpa [List.append_assoc] using h
    rw [ih (acc ++ [x]) h']
    simp

/-- A node list with pairwise distinct ids passes through the Python
dict construction unchanged. -/
lemma buildNodesDict_eq_self (nodes : List CGNode)
    (h : ((nodes.map fun n => n.id).Nodup)) :
    buildNodesDict nodes = nodes := by
  have := buildNodesDict_go nodes [] (by simpa using h)
  simpa [buildNodesDict] using this

lemma parse_node_step_symbol (st : VParsed) (n : VNode) :
    (parse_node_step st n).symbol =
      if isVCategory n then vSymbolOf n else st.symbol := by
  unfold parse_node_step
  by_cases h1 : isVCategory n
  · simp [h1]
  · simp only [h1, Bool.false_eq_true, if_false]
    by_cases h2 : isVEntry n
    · simp [h2]
    · simp only [h2, Bool.false_eq_true, if_false]
      by_cases h3 : isVTakeProfit n
      · simp [h3]
      · simp only [h3, Bool.false_eq_true, if_false]
        by_cases h4 : isVStopLoss n
        · simp [h4]
        · simp [h4]

lemma parse_node_step_tp (st : VParsed) (n : VNode) :
    (parse_node_step st n).take_profit_pct =
      if isVTakeProfit n then some ((n.meta.target_pct).getD 7)
      else st.take_profit_pct := by
  unfold parse_node_step
  have hcat : ∀ h : isVCategory n = true, isVTakeProfit n = false := by
    intro h
    simp only [isVCategory, Bool.or_eq_true, decide_eq_true_eq] at h
    rcases h with h | h <;> simp [isVTakeProfit, h]
  have hent : ∀ h : isVEntry n = true, isVTakeProfit n = false := by
    intro h
    simp only [isVEntry, Bool.or_eq_true, decide_eq_true_eq] at h
    rcases h with h | h <;> simp [isVTakeProfit, h]
  by_cases h1 : isVCategory n
  · simp [h1, hcat h1]
  · simp only [h1, Bool.false_eq_true, if_false]
    by_cases h2 : isVEntry n
    · simp [h2, hent h2]
    · simp only [h2, Bool.false_eq_true, if_false]
      by_cases h3 : isVTakeProfit n
      · simp [h3]
      · simp only [h3, Bool.false_eq_true, if_false]
        by_cases h4 : isVStopLoss n
        · simp [h3, h4]
        · simp [h3, h4]

lemma parse_node_step_sl (st : VParsed) (n : VNode) :
    (parse_node_step st n).stop_loss_pct =
      if isVStopLoss n then some ((n.meta.stop_pct).getD 5)
      else st.stop_loss_pct := by
  unfold parse_node_step
  have hcat : ∀ h : isVCategory n = true, isVStopLoss n = false := by
    intro h
    simp only [isVCategory, Bool.or_eq_true, decide_eq_true_eq] at h
    rcases h with h | h <;> simp [isVStopLoss, h]
  have hent : ∀ h : isVEntry n = true, isVStopLoss n = false := by
    intro h
    simp only [isVEntry, Bool.or_eq_true, decide_eq_true_eq] at h
    rcases h with h | h <;> simp [isVStopLoss, h]
  have htp : ∀ h : isVTakeProfit n = true, isVStopLoss n = false := by
    intro h
    simp only [isVTakeProfit, Bool.or_eq_true, decide_eq_true_eq] at h
    rcases h with h | h <;> simp [isVStopLoss, h]
  by_cases h1 : isVCategory n
  · simp [h1, hcat h1]
  · simp only [h1, Bool.false_eq_true, if_false]
    by_cases h2 : isVEntry n
    · simp [h2, hent h2]
    · simp only [h2, Bool.false_eq_true, if_false]
      by_cases h3 : isVTakeProfit n
      · simp [h3, htp h3]
      · simp only [h3, Bool.false_eq_true, if_false]
        by_cases h4 : isVStopLoss n
        · simp [h4]
        · simp [h4]

/-- The value of any overwrite-style field of the node-loop accumulator
is determined by the last matching node. -/
lemma foldl_parse_proj {γ : Type} (proj : VParsed → γ) (p : VNode → Bool)
    (g : VNode → γ)
    (hstep : ∀ st n, proj (parse_node_step st n) =
      if p n then g n else proj st) :
    ∀ (nodes : List VNode) (st : VParsed),
      proj (nodes.foldl parse_node_step st) =
        (match nodes.reverse.find? p with
         | some n => g n
         | none => proj st) := by
  intro nodes
  induction nodes with
  | nil => intro st; rfl
  | cons x t ih =>
    intro st
    rw [List.foldl_cons, ih, List.reverse_cons, find?_append_some]
    cases h : t.reverse.find? p with
    | some n => rfl
    | none =>
      by_cases hx : p x
      · simp [List.find?_cons_of_pos _ hx, hx, Option.orElse, hstep]
      · simp [List.find?_cons_of_neg _ hx, hx, Option.orElse, hstep]

def tpNode3 : CGNode := ⟨"n1", "take_profit", { target_pct := some 3 }⟩

def tpNode9 : CGNode := ⟨"n2", "take_profit", { target_pct := some 9 }⟩

def catNodeEthCG : CGNode :=
  ⟨"a", "category", { category := some "Ethereum" }⟩

def vCatBtc : VNode := ⟨"category", { category := some "Bitcoin" }⟩

def vCatEth : VNode := ⟨"category", { category := some "Ethereum" }⟩

/-- C7 counterexample: with two take-profit nodes the code generator's
extractor returns the second node's value (the loop has no break, so the
last node wins, the first is the one ignored), and with two category
nodes the backtest runner derives the symbol from the second — the
claimed first-wins / duplicates-ignored-after-the-first behavior fails
for both. -/
theorem C7_counterexample :
    extract_exit_logic_of_schema [tpNode3, tpNode9] = some 9 ∧
    extract_exit_logic_of_schema [tpNode3, tpNode9] ≠ some 3 ∧
    (parse_schema_nodes [vCatBtc, vCatEth]).symbol = "ETH-USD" ∧
    (parse_schema_nodes [vCatBtc, vCatEth]).symbol ≠ "BTC-USD" := by
  refine ⟨rfl, by decide, rfl, by decide⟩

/-- C7 (amended): with pairwise-distinct node ids, the code generator
takes the category from the FIRST category-typed node (default
`"Bitcoin"`), but duplicate take-profit and stop-loss nodes resolve
LAST-wins (the last matching node's meta is used) in the code
generator's extractors, and the backtest runner likewise derives the
symbol from the LAST category node. -/
theorem C7_category_first_stops_last (nodes : List CGNode)
    (vnodes : List VNode)
    (hnodup : ((nodes.map fun n => n.id).Nodup)) :
    extract_category_of_schema nodes =
      (match nodes.find? isCategoryNode with
       | some n => (n.meta.category).getD "Bitcoin"
       | none => "Bitcoin") ∧
    extract_exit_logic_of_schema nodes =
      (nodes.reverse.find? isTakeProfitNode).map
        (fun n => (n.meta.target_pct).getD 5) ∧
    extract_risk_management_of_schema nodes =
      (nodes.reverse.find? isStopLossNode).map
        (fun n => (n.meta.stop_pct).getD 5) ∧
    (parse_schema_nodes vnodes).symbol =
      (match vnodes.reverse.find? isVCategory with
       | some n => vSymbolOf n
       | none => "BTC-USD") := by
  refine ⟨?_, ?_, ?_, ?_⟩
  · unfold extract_category_of_schema
    rw [buildNodesDict_eq_self nodes hnodup]
    rfl
  · unfold extract_exit_logic_of_schema
    rw [buildNodesDict_eq_self nodes hnodup]
    unfold extract_exit_logic
    rw [foldl_if_overwrite isTakeProfitNode
      (fun n => some ((n.meta.target_pct).getD 5)) nodes none]
    cases h : nodes.reverse.find? isTakeProfitNode <;> simp
  · unfold extract_risk_management_of_schema
    rw [buildNodesDict_eq_self nodes hnodup]
    unfold extract_risk_management
    rw [foldl_if_overwrite isStopLossNode
      (fun n => some ((n.meta.stop_pct).getD 5)) nodes none]
    cases h : nodes.reverse.find? isStopLossNode <;> simp
  · unfold parse_schema_nodes
    exact foldl_parse_proj (fun st => st.symbol) isVCategory vSymbolOf
      parse_node_step_symbol vnodes _

/-- C7 witness: distinct-id nodes with one category node first and two
take-profit duplicates; two category nodes for the runner. -/
theorem C7_category_witness :
    extract_category_of_schema [catNodeEthCG, tpNode3, tpNode9] =
      "Ethereum" ∧
    extract_exit_logic_of_schema [catNodeEthCG, tpNode3, tpNode9] =
      some 9 ∧
    (parse_schema_nodes [vCatEth, vCatBtc]).symbol = "BTC-USD" := by
  have h := C7_category_first_stops_last [catNodeEthCG, tpNode3, tpNode9]
    [vCatEth, vCatBtc] (by decide)
  refine ⟨?_, ?_, ?_⟩
  · rw [h.1]
    rfl
  · rw [h.2.1]
    rfl
  · rw [h.2.2.2]
    rfl

def vTpNoKey : VNode := ⟨"take_profit", {}⟩

def vSlNoKey : VNode := ⟨"stop_loss", {}⟩

/-- C8 counterexample: a take-profit (stop-loss) node whose meta lacks
`target_pct` (`stop_pct`) yields the substituted numeric default
7.0 (5.0), not null; and the generated portfolio code substitutes
`sl_stop = 5/100`, `tp_stop = 7/100` even when NO such node exists —
contradicting "absent ⇒ null, never a substituted numeric default". -/
theorem C8_counterexample :
    (parse_schema_nodes [vTpNoKey]).take_profit_pct = some 7 ∧
    (parse_schema_nodes [vSlNoKey]).stop_loss_pct = some 5 ∧
    generate_portfolio_stops (extract_risk_management_of_schema [])
      (extract_exit_logic_of_schema []) = (5 / 100, 7 / 100) :=
  ⟨rfl, rfl, rfl⟩

/-- C8 (amended): the parsed stop/target percentages are null exactly
when no matching node exists in the backtest runner; a PRESENT node with
an absent meta key yields the default 7.0 (take-profit) or 5.0
(stop-loss) there; and the code generator's portfolio step always
substitutes the numeric defaults 5.0 / 7.0 when its extractors carried
no node. -/
theorem C8_null_only_when_node_absent (ns : List VNode) (m : NodeMeta)
    (risk exitL : Option ℚ) :
    ((∀ n ∈ ns, isVTakeProfit n = false) →
      (parse_schema_nodes ns).take_profit_pct = none) ∧
    ((∀ n ∈ ns, isVStopLoss n = false) →
      (parse_schema_nodes ns).stop_loss_pct = none) ∧
    (m.target_pct = none →
      (parse_schema_nodes [⟨"take_profit", m⟩]).take_profit_pct =
        some 7) ∧
    (m.stop_pct = none →
      (parse_schema_nodes [⟨"stop_loss", m⟩]).stop_loss_pct = some 5) ∧
    generate_portfolio_stops risk exitL =
      ((risk.getD 5) / 100, (exitL.getD 7) / 100) := by
  refine ⟨?_, ?_, ?_, ?_, rfl⟩
  · intro hall
    unfold parse_schema_nodes
    rw [foldl_parse_proj (fun st => st.take_profit_pct) isVTakeProfit
      (fun n => some ((n.meta.target_pct).getD 7)) parse_node_step_tp ns _]
    have hfind : ns.reverse.find? isVTakeProfit = none := by
      rw [List.find?_eq_none]
      intro a ha
      simp [hall a (List.mem_reverse.mp ha)]
    rw [hfind]
  · intro hall
    unfold parse_schema_nodes
    rw [foldl_parse_proj (fun st => st.stop_loss_pct) isVStopLoss
      (fun n => some ((n.meta.stop_pct).getD 5)) parse_node_step_sl ns _]
    have hfind : ns.reverse.find? isVStopLoss = none := by
      rw [List.find?_eq_none]
      intro a ha
      simp [hall a (List.mem_reverse.mp ha)]
    rw [hfind]
  · intro hm
    show (parse_node_step _ ⟨"take_profit", m⟩).take_profit_pct = some 7
    rw [parse_node_step_tp]
    simp [isVTakeProfit, hm]
  · intro hm
    show (parse_node_step _ ⟨"stop_loss", m⟩).stop_loss_pct = some 5
    rw [parse_node_step_sl]
    simp [isVStopLoss, hm]

/-- C8 witness: a category-only node list has null stops; a keyless
take-profit node yields the default 7.0. -/
theorem C8_null_witness :
    (parse_schema_nodes [vCatEth]).take_profit_pct = none ∧
    (parse_schema_nodes [vCatEth]).stop_loss_pct = none ∧
    (parse_schema_nodes [vTpNoKey]).take_profit_pct = some 7 := by
  have h := C8_null_only_when_node_absent [vCatEth] {} none none
  exact ⟨h.1 (by decide), h.2.1 (by decide), h.2.2.1 rfl⟩

end VW
